import Mathlib

/-!
# go-poetryx: idempotent mutations of a scaffolded Poetry project

A shallow embedding of `project.go` and `driver.go`.

* The filesystem is an explicit `World`: a map from paths to nodes, an oracle
  saying which paths can be opened for writing, and a trace of the effects
  performed so far (file writes and spawned commands).
* Every Go method becomes a function `World → Except String α × World`
  (or `World → Except String α` when it only reads).
* Packages the repository imports but does not contain (`path/filepath`,
  `go-toml`, `go-gitignore`, the Unicode tables of `strconv`, the spawned
  processes) are fields of `Env`; every theorem is stated for an arbitrary
  `Env` unless it evaluates the code at one concrete input.
* File contents and Go strings are `String`s; a file has at least one byte
  exactly when its content is not the empty string.
-/

namespace Poetryx

/-! ## Data model (`project.go`, lines 15-46) -/

/-- Finite mapping with unique keys, the payload of a Go `map[string]string`. -/
abbrev StringMap := AList (fun _ : String => String)

/-- Go value of type `map[string]string`: either the nil map or an allocated
map.  Reading from the nil map is allowed and finds nothing. -/
inductive GoMap where
  | nil
  | made (m : StringMap)
deriving DecidableEq

/-- Two-result index expression `m[key]`: `none` stands for `ok == false`. -/
def GoMap.get (m : GoMap) (key : String) : Option String :=
  match m with
  | .nil => none
  | .made s => s.lookup key

/-- Key/value pairs visited by `for key, value := range m`.  Go leaves the
order unspecified; the embedding visits them in the order of the
representation. -/
def GoMap.entries (m : GoMap) : List (Sigma (fun _ : String => String)) :=
  match m with
  | .nil => []
  | .made s => s.entries

/-- Keys present in the map. -/
def GoMap.keys (m : GoMap) : List String :=
  match m with
  | .nil => []
  | .made s => s.keys

structure PyprojectTomlBuildSystemTable where
  Requires : List String
  BuildBackend : String
deriving DecidableEq

structure PyprojectTomlToolPoetryTable where
  Name : String
  Version : String
  Description : String
  Authors : List String
  ReadmePath : String
  Dependencies : GoMap
  Scripts : GoMap
deriving DecidableEq

structure PyprojectTomlToolTable where
  Poetry : PyprojectTomlToolPoetryTable
deriving DecidableEq

structure PyprojectTomlDocument where
  Tool : PyprojectTomlToolTable
  BuildSystem : PyprojectTomlBuildSystemTable
deriving DecidableEq

def poetryConfigDefaultFileName : String := "pyproject.toml"
def gitignoreDefaultFileName : String := ".gitignore"
def initPythonScriptDefaultFileName : String := "__init__.py"

structure PoetryProject where
  Name : String
  Path : String
deriving DecidableEq

structure Driver where
  PoetryExecutableFilePath : String
deriving DecidableEq

/-! ## The world the program runs in -/

/-- What a path names on disk. -/
inductive Node where
  | absent
  | file (content : String)
  | dir
deriving DecidableEq

/-- Command handed to `os/exec`: program, arguments after the program name,
working directory (`cmd.Dir`, empty when not set). -/
structure Command where
  Path : String
  Args : List String
  Dir : String
deriving DecidableEq

/-- Observable effects, in the order they happen. -/
inductive Event where
  | write (path : String) (content : String)
  | spawn (cmd : Command)
deriving DecidableEq

structure World where
  /-- Node found at each path. -/
  nodes : String → Node
  /-- Whether the operating system lets the program create the path or open
  it for writing (parent directory present, permissions). -/
  creatable : String → Bool
  /-- Effects performed so far. -/
  trace : List Event

/-- Result of starting a process and reading its standard output. -/
inductive Started where
  | pipeFailed
  | startFailed
  | readFailed
  | output (stdout : String)
deriving DecidableEq

/-- Collaborators that live outside the repository. -/
structure Env where
  /-- Function `filepath.Join`. -/
  join : List String → String
  /-- Encoder of `go-toml`. -/
  encode : PyprojectTomlDocument → String
  /-- Decoder of `go-toml`; `none` when the content is not a valid document. -/
  decode : String → Option PyprojectTomlDocument
  /-- Matcher of `go-gitignore`: `ignores file contents path` is the value of
  `m != nil && m.Ignore()` for `m := g.Match(path)`, where `g` was built by
  `gitignore.NewFromFile(file)` from a file holding `contents`. -/
  ignores : String → String → String → Bool
  /-- Table `strconv.IsPrint` above U+00FF. -/
  isPrintWide : Char → Bool
  /-- Behaviour of a command run to completion with `cmd.Run()`: whether it
  exited with status zero, and the filesystem it leaves behind. -/
  run : Command → (String → Node) → Bool × (String → Node)
  /-- Behaviour of a command started with `cmd.Start()` whose standard output
  is read through a pipe. -/
  start : Command → (String → Node) → Started

/-- Whether `os.Create` / `os.OpenFile(..., O_WRONLY|O_CREATE|O_APPEND, ...)`
succeeds on the path: the system must allow it and the path must not be a
directory. -/
def World.canWrite (w : World) (path : String) : Bool :=
  w.creatable path && decide (w.nodes path ≠ Node.dir)

/-- The file at `path` now holds `content`; the write is recorded. -/
def World.put (w : World) (path : String) (content : String) : World :=
  { w with
    nodes := fun q => if q = path then Node.file content else w.nodes q
    trace := w.trace ++ [Event.write path content] }

/-- A command was handed to the operating system and left `nodes` behind. -/
def World.spawned (w : World) (cmd : Command) (nodes : String → Node) : World :=
  { w with nodes := nodes, trace := w.trace ++ [Event.spawn cmd] }

/-! ## `project.go` -/

/-- Method `WritePoetryConfig` (lines 48-59): truncate-or-create the manifest
and stream the encoded document into it. -/
def PoetryProject.WritePoetryConfig (env : Env) (p : PoetryProject)
    (document : PyprojectTomlDocument) (w : World) : Except String Unit × World :=
  let filePath := env.join [p.Path, poetryConfigDefaultFileName]
  if w.canWrite filePath then
    (.ok (), w.put filePath (env.encode document))
  else
    (.error "error while creating file", w)

/-- Method `ReadPoetryConfig` (lines 61-73). -/
def PoetryProject.ReadPoetryConfig (env : Env) (p : PoetryProject) (w : World) :
    Except String PyprojectTomlDocument :=
  let filePath := env.join [p.Path, poetryConfigDefaultFileName]
  match w.nodes filePath with
  | .absent => .error "error while opening file"
  | .dir => .error "error while decoding file"
  | .file content =>
    match env.decode content with
    | none => .error "error while decoding file"
    | some document => .ok document

/-- Lines 128-131 of `AddScript`: a fresh map receives every pair of the map
that was read. -/
def copyScripts (m : GoMap) : StringMap :=
  m.entries.foldl (fun scripts e => scripts.insert e.1 e.2) ∅

/-- Lines 124-146 of `AddScript`: `none` when the method returns at line 126
without writing, otherwise the document handed to `WritePoetryConfig`. -/
def addScriptDocument (document : PyprojectTomlDocument) (name location : String) :
    Option PyprojectTomlDocument :=
  let build : PyprojectTomlDocument :=
    { Tool :=
        { Poetry :=
            { Name := document.Tool.Poetry.Name
              Version := document.Tool.Poetry.Version
              Description := document.Tool.Poetry.Description
              Authors := document.Tool.Poetry.Authors
              ReadmePath := document.Tool.Poetry.ReadmePath
              Dependencies := document.Tool.Poetry.Dependencies
              Scripts := GoMap.made ((copyScripts document.Tool.Poetry.Scripts).insert name location) } }
      BuildSystem := document.BuildSystem }
  match document.Tool.Poetry.Scripts.get name with
  | some currentLocation => if location = currentLocation then none else some build
  | none => some build

/-- Method `AddScript` (lines 119-147). -/
def PoetryProject.AddScript (env : Env) (p : PoetryProject) (name location : String)
    (w : World) : Except String Unit × World :=
  match p.ReadPoetryConfig env w with
  | .error e => (.error ("error while reading Poetry config file: " ++ e), w)
  | .ok document =>
    match addScriptDocument document name location with
    | none => (.ok (), w)
    | some written => p.WritePoetryConfig env written w

/-- String literal written by `InitializeDefaultMainPythonFile` (lines 107-112). -/
def defaultMainPythonFileContents : String :=
  "" ++
    "def main() -> None:\n" ++
    "    pass\n" ++
    "\n" ++
    "if __name__ == \"__main__\":\n" ++
    "    main()\n"

/-- Method `InitializeDefaultMainPythonFile` (lines 75-117).  `ReadByte`
succeeds exactly when the file holds at least one byte and reports `io.EOF`
on an empty file; reading from a directory fails with another error.  The
template is shorter than the buffer of `bufio.Writer`, so `WriteString` cannot
fail and the deferred `Flush` stores it. -/
def PoetryProject.InitializeDefaultMainPythonFile (env : Env) (p : PoetryProject)
    (w : World) : Except String Unit × World :=
  let filePath := env.join [p.Path, p.Name, initPythonScriptDefaultFileName]
  let create : Except String Unit × World :=
    if w.canWrite filePath then
      (.ok (), w.put filePath defaultMainPythonFileContents)
    else
      (.error "error while creating file", w)
  match w.nodes filePath with
  | .absent => create
  | .dir => (.error "error while reading first byte from file", w)
  | .file content =>
    if content ≠ "" then (.ok (), w) else create

/-- Method `AddIgnoredPath` (lines 157-187).  Line 172 queries the matcher
with `filePath`, the location of the ignore file itself. -/
def PoetryProject.AddIgnoredPath (env : Env) (p : PoetryProject) (path : String)
    (w : World) : Except String Unit × World :=
  let filePath := env.join [p.Path, gitignoreDefaultFileName]
  let ensured : Except String World :=
    if w.nodes filePath = Node.absent then
      if w.canWrite filePath then .ok (w.put filePath "")
      else .error "error while creating file"
    else .ok w
  match ensured with
  | .error e => (.error e, w)
  | .ok w1 =>
    match w1.nodes filePath with
    | .file contents =>
      if env.ignores filePath contents filePath then
        (.ok (), w1)
      else if w1.canWrite filePath then
        (.ok (), w1.put filePath (contents ++ (path ++ "/\n")))
      else
        (.error "error while opening file for adding path", w1)
    | _ => (.error "error while parsing file", w1)

/-! ## `driver.go` -/

def ErrExecutableNotFound : String := "could not find Poetry executable"

def lowerhex : List Char := "0123456789abcdef".data

/-- Hexadecimal digit `lowerhex[n & 0xF]`. -/
def hexDigit (n : Nat) : Char := lowerhex.getD (n % 16) '0'

/-- Function `strconv.IsPrint`; the table for runes above U+00FF is a
parameter. -/
def isPrint (wide : Char → Bool) (r : Char) : Bool :=
  if r.toNat ≤ 0xFF then
    if 0x20 ≤ r.toNat ∧ r.toNat ≤ 0x7E then true
    else if 0xA1 ≤ r.toNat then decide (r.toNat ≠ 0xAD)
    else false
  else wide r

/-- Function `appendEscapedRune` of `strconv` for the double quote, neither
ASCII-only nor graphic-only.  A `Char` is always a valid rune. -/
def appendEscapedRune (wide : Char → Bool) (r : Char) : List Char :=
  if r = '"' ∨ r = '\\' then ['\\', r]
  else if isPrint wide r then [r]
  else if r = Char.ofNat 7 then ['\\', 'a']
  else if r = Char.ofNat 8 then ['\\', 'b']
  else if r = Char.ofNat 12 then ['\\', 'f']
  else if r = '\n' then ['\\', 'n']
  else if r = '\r' then ['\\', 'r']
  else if r = '\t' then ['\\', 't']
  else if r = Char.ofNat 11 then ['\\', 'v']
  else if r.toNat < 0x20 ∨ r.toNat = 0x7F then
    ['\\', 'x', hexDigit (r.toNat / 16), hexDigit r.toNat]
  else if r.toNat < 0x10000 then
    ['\\', 'u', hexDigit (r.toNat / 4096), hexDigit (r.toNat / 256),
      hexDigit (r.toNat / 16), hexDigit r.toNat]
  else
    ['\\', 'U', hexDigit (r.toNat / 268435456), hexDigit (r.toNat / 16777216),
      hexDigit (r.toNat / 1048576), hexDigit (r.toNat / 65536),
      hexDigit (r.toNat / 4096), hexDigit (r.toNat / 256),
      hexDigit (r.toNat / 16), hexDigit r.toNat]

/-- Escaped runes of a string, in order. -/
def quoteBody (wide : Char → Bool) : List Char → List Char
  | [] => []
  | r :: rest => appendEscapedRune wide r ++ quoteBody wide rest

/-- Function `strconv.Quote`, which is what the verb `%q` of `fmt` prints for
a string. -/
def strconvQuote (wide : Char → Bool) (s : String) : String :=
  String.mk ('"' :: (quoteBody wide s.data ++ ['"']))

/-- Value of `cmdExecutableText` after the `switch` of lines 23-31; `none`
when the default branch returns.  A Go `case` does not fall through, so the
empty `case "linux":` leaves the variable at its zero value. -/
def cmdExecutableText (osName : String) : Option String :=
  if osName = "linux" then some ""
  else if osName = "ios" then some "which"
  else if osName = "windows" then some "where"
  else none

/-- Command built at line 32. -/
def lookupCommand (osName : String) : Option Command :=
  (cmdExecutableText osName).map (fun text => { Path := text, Args := ["poetry"], Dir := "" })

/-- Method `ReadString` of `bufio.Reader` with delimiter newline on input
that ends after `s`: the text up to and including the first newline, or `none`
when the input ends first (`io.EOF`). -/
def readLine : List Char → Option (List Char)
  | [] => none
  | c :: cs => if c = '\n' then some [c] else (readLine cs).map (fun l => c :: l)

/-- Predicate `unicode.IsSpace`. -/
def isSpace (c : Char) : Bool :=
  let n := c.toNat
  n = 0x09 || n = 0x0A || n = 0x0B || n = 0x0C || n = 0x0D || n = 0x20 || n = 0x85 ||
    n = 0xA0 || n = 0x1680 || (0x2000 ≤ n && n ≤ 0x200A) || n = 0x2028 || n = 0x2029 ||
    n = 0x202F || n = 0x205F || n = 0x3000

/-- Function `strings.TrimSpace`. -/
def trimSpace (s : List Char) : String :=
  String.mk ((s.dropWhile isSpace).reverse.dropWhile isSpace).reverse

/-- Function `NewDriverFromEnvironment` (lines 21-52); `osName` is
`runtime.GOOS`. -/
def NewDriverFromEnvironment (env : Env) (osName : String) (w : World) :
    Except String Driver × World :=
  match lookupCommand osName with
  | none => (.error ("unsupported OS: " ++ strconvQuote env.isPrintWide osName), w)
  | some cmd =>
    match env.start cmd w.nodes with
    | .pipeFailed => (.error "error while retrieving stdout from command", w)
    | .startFailed => (.error "error while launching command", w.spawned cmd w.nodes)
    | .readFailed =>
      (.error "error while reading line from stdout", w.spawned cmd w.nodes)
    | .output stdout =>
      match readLine stdout.data with
      | none => (.error ErrExecutableNotFound, w.spawned cmd w.nodes)
      | some line =>
        (.ok { PoetryExecutableFilePath := trimSpace line }, w.spawned cmd w.nodes)

/-- Function `NewDriver` (lines 54-64). -/
def NewDriver (path : String) (w : World) : Except String Driver :=
  if w.nodes path = Node.absent then .error ErrExecutableNotFound
  else .ok { PoetryExecutableFilePath := path }

/-- Command built at lines 71-77 of `CreateNewProject`. -/
def newProjectCommand (env : Env) (d : Driver) (path name : String) : Command :=
  { Path := d.PoetryExecutableFilePath
    Args := ["new", name, "--directory=" ++ strconvQuote env.isPrintWide path]
    Dir := path }

/-- Method `CreateNewProject` (lines 66-85).  `os.Stat` returns no error
exactly when the path names something. -/
def Driver.CreateNewProject (env : Env) (d : Driver) (path name : String) (w : World) :
    Except String PoetryProject × World :=
  let projectPath := env.join [path, name]
  if w.nodes projectPath ≠ Node.absent then
    (.error ("directory already exists: " ++ projectPath), w)
  else
    let cmd := newProjectCommand env d path name
    let result := env.run cmd w.nodes
    if result.1 then
      (.ok { Name := name, Path := projectPath }, w.spawned cmd result.2)
    else
      (.error "error while running `poetry new`", w.spawned cmd result.2)

/-- Command built at lines 88-92 of `Install`. -/
def installCommand (d : Driver) (path : String) : Command :=
  { Path := d.PoetryExecutableFilePath
    Args := ["install", "--directory=" ++ path]
    Dir := "" }

/-- Method `Install` (lines 87-96). -/
def Driver.Install (env : Env) (d : Driver) (path : String) (w : World) :
    Except String Unit × World :=
  let cmd := installCommand d path
  let result := env.run cmd w.nodes
  if result.1 then
    (.ok (), w.spawned cmd result.2)
  else
    (.error ("error while installing Poetry project " ++ strconvQuote env.isPrintWide path),
      w.spawned cmd result.2)

/-- Method `InstallProject` (lines 98-100). -/
def Driver.InstallProject (env : Env) (d : Driver) (project : PoetryProject) (w : World) :
    Except String Unit × World :=
  d.Install env project.Path w

/-! ## Vocabulary of the properties -/

/-- Lines of a text: the maximal runs between newline characters; a final run
without a terminating newline is a line too when it is not empty. -/
def splitLines : List Char → List (List Char)
  | [] => []
  | c :: cs =>
    if c = '\n' then [] :: splitLines cs
    else
      match splitLines cs with
      | [] => [[c]]
      | l :: ls => (c :: l) :: ls

/-- Lines of a file with the given content. -/
def fileLines (content : String) : List String :=
  (splitLines content.data).map String.mk

/-- How many lines of the file are equal to `line`. -/
def lineCount (content line : String) : Nat :=
  (fileLines content).count line

/-- Number of writes to `path` recorded in a trace. -/
def writeCount (path : String) : List Event → Nat
  | [] => 0
  | Event.write q _ :: rest => (if q = path then 1 else 0) + writeCount path rest
  | Event.spawn _ :: rest => writeCount path rest

/-- Node of the ignore file as `AddIgnoredPath` parses it: a missing file is
first created empty. -/
def ignoreContents (w : World) (filePath : String) : Option String :=
  match w.nodes filePath with
  | .absent => some ""
  | .file contents => some contents
  | .dir => none

/-! ## A concrete environment, for evaluating the code on examples -/

/-- Components separated by a slash: what `filepath.Join` returns on Unix for
non-empty components that need no cleaning. -/
def slashJoin : List String → String
  | [] => ""
  | [a] => a
  | a :: rest => a ++ "/" ++ slashJoin rest

/-- Last component of a slash-separated path. -/
def baseName (path : List Char) : List Char :=
  (path.reverse.takeWhile (fun c => c ≠ '/')).reverse

/-- Modelled from the spec: the pattern matcher of the external `go-gitignore`
package (section 4.6: trailing-slash directory anchors, a path is ignored when
a positive rule matches it), for ignore files whose lines are literal names
without wildcards or negation.  A path is ignored when its last component is a
line of the file, or when the path is a directory and its last component
followed by a slash is a line.  `dirs` lists the paths that are directories;
the ignore file itself is a regular file. -/
def literalIgnores (dirs : List String) (_file contents path : String) : Bool :=
  let name := String.mk (baseName path.data)
  (fileLines contents).any
    (fun l => l == name || (l == name ++ "/" && dirs.contains path))

def encodeString (s : String) : List Nat := s.data.map Char.toNat

def decodeString (l : List Nat) : String := String.mk (l.map Char.ofNat)

def encodeMap : GoMap → Option (List (List Nat × List Nat))
  | .nil => none
  | .made m => some (m.entries.map (fun e => (encodeString e.1, encodeString e.2)))

def decodeMap : Option (List (List Nat × List Nat)) → GoMap
  | none => .nil
  | some l =>
    .made (List.toAList (l.map (fun kv =>
      (⟨decodeString kv.1, decodeString kv.2⟩ : Sigma (fun _ : String => String)))))

/-- Fields of a document as numbers, in declaration order. -/
abbrev RawDocument :=
  (List Nat × List Nat × List Nat × List (List Nat) × List Nat ×
      Option (List (List Nat × List Nat)) × Option (List (List Nat × List Nat))) ×
    (List (List Nat) × List Nat)

def toRaw (d : PyprojectTomlDocument) : RawDocument :=
  ((encodeString d.Tool.Poetry.Name, encodeString d.Tool.Poetry.Version,
      encodeString d.Tool.Poetry.Description, d.Tool.Poetry.Authors.map encodeString,
      encodeString d.Tool.Poetry.ReadmePath, encodeMap d.Tool.Poetry.Dependencies,
      encodeMap d.Tool.Poetry.Scripts),
    (d.BuildSystem.Requires.map encodeString, encodeString d.BuildSystem.BuildBackend))

def ofRaw (r : RawDocument) : PyprojectTomlDocument :=
  { Tool :=
      { Poetry :=
          { Name := decodeString r.1.1
            Version := decodeString r.1.2.1
            Description := decodeString r.1.2.2.1
            Authors := r.1.2.2.2.1.map decodeString
            ReadmePath := decodeString r.1.2.2.2.2.1
            Dependencies := decodeMap r.1.2.2.2.2.2.1
            Scripts := decodeMap r.1.2.2.2.2.2.2 } }
    BuildSystem :=
      { Requires := r.2.1.map decodeString
        BuildBackend := decodeString r.2.2 } }

/-- A serialisation that loses nothing: the document is numbered and the
number written in unary.  It stands in for the TOML encoder where a concrete
codec is needed. -/
def unaryEncode (d : PyprojectTomlDocument) : String :=
  String.mk (List.replicate (Encodable.encode (toRaw d)) 'x')

/-- Inverse of `unaryEncode`. -/
def unaryDecode (s : String) : Option PyprojectTomlDocument :=
  (Encodable.decode s.data.length : Option RawDocument).map ofRaw

/-- Sample environment: Unix paths, the literal matcher over a project `proj`
whose directory `build` exists, the lossless codec, and a package manager
whose `new` command succeeds and creates the project directory. -/
def sampleEnv : Env :=
  { join := slashJoin
    encode := unaryEncode
    decode := unaryDecode
    ignores := literalIgnores ["build", "proj/build"]
    isPrintWide := fun _ => false
    run := fun cmd nodes =>
      (true, fun q => if q = slashJoin [cmd.Dir, cmd.Args.getD 1 ""] then Node.dir else nodes q)
    start := fun _ _ => Started.startFailed }

/-- A map as a decoder that does not keep empty tables returns it: an
allocated map without entries reads back as the nil map. -/
def normalizeMap : GoMap → GoMap
  | .nil => .nil
  | .made m => if m.entries = [] then .nil else .made m

/-- Document with both mapping fields normalised. -/
def normalizeDocument (d : PyprojectTomlDocument) : PyprojectTomlDocument :=
  { Tool :=
      { Poetry :=
          { Name := d.Tool.Poetry.Name
            Version := d.Tool.Poetry.Version
            Description := d.Tool.Poetry.Description
            Authors := d.Tool.Poetry.Authors
            ReadmePath := d.Tool.Poetry.ReadmePath
            Dependencies := normalizeMap d.Tool.Poetry.Dependencies
            Scripts := normalizeMap d.Tool.Poetry.Scripts } }
    BuildSystem := d.BuildSystem }

/-- Sample environment whose decoder does not give back the document that was
encoded, only one with the same entries: empty maps come back nil. -/
def nilReadingEnv : Env :=
  { join := slashJoin
    encode := unaryEncode
    decode := fun s => (unaryDecode s).map normalizeDocument
    ignores := literalIgnores ["build", "proj/build"]
    isPrintWide := fun _ => false
    run := fun _ nodes => (true, nodes)
    start := fun _ _ => Started.startFailed }

/-- Filesystem with nothing in it where every path can be created. -/
def emptyWorld : World :=
  { nodes := fun _ => Node.absent
    creatable := fun _ => true
    trace := [] }

/-- Filesystem holding one regular file. -/
def oneFileWorld (path content : String) : World :=
  { nodes := fun q => if q = path then Node.file content else Node.absent
    creatable := fun _ => true
    trace := [] }

def sampleProject : PoetryProject := { Name := "demo", Path := "proj" }

/-- Project directory `proj` with a directory `build` and an ignore file
holding `ignore`. -/
def projectWorld (ignore : String) : World :=
  { nodes := fun q =>
      if q = "proj/.gitignore" then Node.file ignore
      else if q = "proj" ∨ q = "proj/build" then Node.dir
      else Node.absent
    creatable := fun _ => true
    trace := [] }

def sampleDocument : PyprojectTomlDocument :=
  { Tool :=
      { Poetry :=
          { Name := "demo"
            Version := "0.1.0"
            Description := ""
            Authors := ["A <a@example.org>"]
            ReadmePath := "README.md"
            Dependencies := GoMap.nil
            Scripts := GoMap.nil } }
    BuildSystem :=
      { Requires := ["poetry-core"]
        BuildBackend := "poetry.core.masonry.api" } }

end Poetryx

namespace Poetryx

/-! ## Facts about the embedding -/

theorem foldl_insert_lookup (k : String) (l : List (Sigma (fun _ : String => String)))
    (hl : l.NodupKeys) (acc : StringMap) :
    (l.foldl (fun scripts e => scripts.insert e.1 e.2) acc).lookup k =
      (l.dlookup k).or (acc.lookup k) := by
  induction l generalizing acc with
  | nil => simp
  | cons e t ih =>
    obtain ⟨hk, ht⟩ := List.nodupKeys_cons.mp hl
    rw [List.foldl_cons, ih ht]
    by_cases h : k = e.1
    · subst h
      rw [List.dlookup_eq_none.mpr hk]
      obtain ⟨a, b⟩ := e
      simp [AList.lookup_insert, List.dlookup_cons_eq]
    · rw [AList.lookup_insert_ne h, List.dlookup_cons_ne t e h]

theorem copyScripts_lookup (m : GoMap) (k : String) :
    (copyScripts m).lookup k = m.get k := by
  cases m with
  | nil => simp [copyScripts, GoMap.entries, GoMap.get]
  | made s =>
    simp only [copyScripts, GoMap.entries, GoMap.get]
    rw [foldl_insert_lookup k s.entries s.nodupKeys ∅]
    simp [AList.lookup]

theorem copyScripts_mem (m : GoMap) (k : String) :
    k ∈ copyScripts m ↔ k ∈ m.keys := by
  rw [← AList.lookup_isSome, copyScripts_lookup]
  cases m with
  | nil => simp [GoMap.get, GoMap.keys]
  | made s => simp [GoMap.get, GoMap.keys, AList.lookup_isSome, AList.mem_keys]

theorem addScriptDocument_eq_some {document written : PyprojectTomlDocument}
    {name location : String} (h : addScriptDocument document name location = some written) :
    written =
      { Tool :=
          { Poetry :=
              { Name := document.Tool.Poetry.Name
                Version := document.Tool.Poetry.Version
                Description := document.Tool.Poetry.Description
                Authors := document.Tool.Poetry.Authors
                ReadmePath := document.Tool.Poetry.ReadmePath
                Dependencies := document.Tool.Poetry.Dependencies
                Scripts :=
                  GoMap.made ((copyScripts document.Tool.Poetry.Scripts).insert name location) } }
        BuildSystem := document.BuildSystem } := by
  unfold addScriptDocument at h
  split at h
  · split at h
    · cases h
    · exact (Option.some.inj h).symm
  · exact (Option.some.inj h).symm

theorem addScriptDocument_eq_none_iff (document : PyprojectTomlDocument)
    (name location : String) :
    addScriptDocument document name location = none ↔
      document.Tool.Poetry.Scripts.get name = some location := by
  unfold addScriptDocument
  split
  · rename_i cur hcur
    rw [hcur]
    split
    · rename_i heq
      simp [heq]
    · rename_i hne
      simp only [Option.some.injEq, false_iff, reduceCtorEq]
      exact fun h => hne h.symm
  · rename_i hnone
    rw [hnone]
    simp

theorem addScriptDocument_scripts_get {document written : PyprojectTomlDocument}
    {name location : String} (h : addScriptDocument document name location = some written) :
    written.Tool.Poetry.Scripts.get name = some location := by
  rw [addScriptDocument_eq_some h]
  simp [GoMap.get, AList.lookup_insert]

theorem AddScript_of_read {env : Env} {p : PoetryProject} {w : World}
    {document : PyprojectTomlDocument} (name location : String)
    (hread : p.ReadPoetryConfig env w = .ok document) :
    p.AddScript env name location w =
      match addScriptDocument document name location with
      | none => (.ok (), w)
      | some written => p.WritePoetryConfig env written w := by
  unfold PoetryProject.AddScript
  rw [hread]

theorem ReadPoetryConfig_put (env : Env) (p : PoetryProject) (w : World)
    (d back : PyprojectTomlDocument) (hrt : env.decode (env.encode d) = some back) :
    p.ReadPoetryConfig env
      (w.put (env.join [p.Path, poetryConfigDefaultFileName]) (env.encode d)) = .ok back := by
  simp [PoetryProject.ReadPoetryConfig, World.put, hrt]

theorem normalizeMap_get (m : GoMap) (key : String) : (normalizeMap m).get key = m.get key := by
  cases m with
  | nil => rfl
  | made s =>
    show (if s.entries = [] then GoMap.nil else GoMap.made s).get key = AList.lookup key s
    by_cases hempty : s.entries = []
    · rw [if_pos hempty]
      show none = AList.lookup key s
      symm
      rw [AList.lookup_eq_none, AList.mem_keys, AList.keys, hempty]
      simp [List.keys]
    · rw [if_neg hempty]
      rfl

theorem writeCount_append (path : String) (a b : List Event) :
    writeCount path (a ++ b) = writeCount path a + writeCount path b := by
  induction a with
  | nil => simp [writeCount]
  | cons e t ih =>
    cases e with
    | write q c => simp [writeCount, ih, Nat.add_assoc]
    | spawn c => simp [writeCount, ih]

theorem decodeString_encodeString (s : String) : decodeString (encodeString s) = s := by
  simp [decodeString, encodeString, List.map_map, Function.comp_def, Char.ofNat_toNat]

theorem dedupKeys_of_nodupKeys (l : List (Sigma (fun _ : String => String)))
    (hl : l.NodupKeys) : l.dedupKeys = l := by
  induction l with
  | nil => rfl
  | cons e t ih =>
    obtain ⟨hk, ht⟩ := List.nodupKeys_cons.mp hl
    rw [List.dedupKeys_cons, ih ht, List.kinsert_def, List.kerase_of_not_mem_keys hk]

theorem decodeMap_encodeMap (m : GoMap) : decodeMap (encodeMap m) = m := by
  cases m with
  | nil => rfl
  | made s =>
    simp only [encodeMap, decodeMap, List.map_map, Function.comp_def,
      decodeString_encodeString, GoMap.made.injEq]
    apply AList.ext
    simp only [List.toAList, Sigma.eta, List.map_id_fun', id_eq]
    exact dedupKeys_of_nodupKeys s.entries s.nodupKeys

theorem ofRaw_toRaw (d : PyprojectTomlDocument) : ofRaw (toRaw d) = d := by
  simp [ofRaw, toRaw, decodeString_encodeString, decodeMap_encodeMap, List.map_map,
    Function.comp_def]

theorem unaryDecode_unaryEncode (d : PyprojectTomlDocument) :
    unaryDecode (unaryEncode d) = some d := by
  unfold unaryDecode unaryEncode
  rw [List.length_replicate, Encodable.encodek, Option.map_some', ofRaw_toRaw]

theorem sampleEnv_decode_encode (d : PyprojectTomlDocument) :
    sampleEnv.decode (sampleEnv.encode d) = some d := by
  simp only [sampleEnv, unaryDecode_unaryEncode]

/-! ## The manifest: `AddScript` -/

/-- C1: when the manifest can be read, and a manifest that was written reads
back as a document with the same script entries, two calls of `AddScript` with
the same arguments leave the world the first call left, record at most one
effect, at most one write of the manifest, and a call that finds
`scripts[name]` equal to `location` succeeds and changes nothing.  The
document read back need not be the document written: only its script lookups
are used. -/
theorem AddScript_twice_one_write (env : Env) (p : PoetryProject) (name location : String)
    (w : World) (document : PyprojectTomlDocument)
    (hread : p.ReadPoetryConfig env w = .ok document)
    (hcodec : ∀ d : PyprojectTomlDocument, ∃ back : PyprojectTomlDocument,
      env.decode (env.encode d) = some back ∧
        ∀ key, back.Tool.Poetry.Scripts.get key = d.Tool.Poetry.Scripts.get key) :
    (p.AddScript env name location (p.AddScript env name location w).2).2 =
        (p.AddScript env name location w).2 ∧
      (p.AddScript env name location (p.AddScript env name location w).2).2.trace.length ≤
        w.trace.length + 1 ∧
      writeCount (env.join [p.Path, poetryConfigDefaultFileName])
          (p.AddScript env name location (p.AddScript env name location w).2).2.trace ≤
        writeCount (env.join [p.Path, poetryConfigDefaultFileName]) w.trace + 1 ∧
      (document.Tool.Poetry.Scripts.get name = some location →
        p.AddScript env name location w = (.ok (), w)) := by
  have hfirst := AddScript_of_read name location hread
  cases hdoc : addScriptDocument document name location with
  | none =>
    rw [hdoc] at hfirst
    have hsecond : p.AddScript env name location w = (.ok (), w) := hfirst
    simp [hsecond]
  | some written =>
    rw [hdoc] at hfirst
    have hno : document.Tool.Poetry.Scripts.get name ≠ some location := by
      intro hget
      rw [(addScriptDocument_eq_none_iff document name location).mpr hget] at hdoc
      cases hdoc
    by_cases hcan : w.canWrite (env.join [p.Path, poetryConfigDefaultFileName]) = true
    · have h1 : p.AddScript env name location w =
          (.ok (), w.put (env.join [p.Path, poetryConfigDefaultFileName]) (env.encode written)) := by
        rw [hfirst]
        simp [PoetryProject.WritePoetryConfig, hcan]
      obtain ⟨back, hdecode, hsame⟩ := hcodec written
      have hread2 := ReadPoetryConfig_put env p w written back hdecode
      have h2 := AddScript_of_read name location hread2
      have hback : back.Tool.Poetry.Scripts.get name = some location := by
        rw [hsame name]
        exact addScriptDocument_scripts_get hdoc
      rw [(addScriptDocument_eq_none_iff back name location).mpr hback] at h2
      rw [h1]
      simp only [h2]
      refine ⟨trivial, ?_, ?_, fun hget => absurd hget hno⟩
      · simp [World.put]
      · simp [World.put, writeCount_append, writeCount]
    · have h1 : p.AddScript env name location w = (.error "error while creating file", w) := by
        rw [hfirst]
        simp [PoetryProject.WritePoetryConfig, hcan]
      rw [h1]
      simp only [h1]
      exact ⟨trivial, by omega, by omega, fun hget => absurd hget hno⟩

theorem ReadPoetryConfig_oneFileWorld (env : Env) (p : PoetryProject)
    (d : PyprojectTomlDocument) (hrt : env.decode (env.encode d) = some d) :
    p.ReadPoetryConfig env
      (oneFileWorld (env.join [p.Path, poetryConfigDefaultFileName]) (env.encode d)) = .ok d := by
  simp only [PoetryProject.ReadPoetryConfig, oneFileWorld, if_true, hrt]

theorem sample_read_manifest :
    sampleProject.ReadPoetryConfig sampleEnv
      (oneFileWorld (sampleEnv.join [sampleProject.Path, poetryConfigDefaultFileName])
        (sampleEnv.encode sampleDocument)) = .ok sampleDocument :=
  ReadPoetryConfig_oneFileWorld sampleEnv sampleProject sampleDocument
    (sampleEnv_decode_encode sampleDocument)

theorem nilReadingEnv_decode_encode (d : PyprojectTomlDocument) :
    nilReadingEnv.decode (nilReadingEnv.encode d) = some (normalizeDocument d) := by
  simp only [nilReadingEnv, unaryDecode_unaryEncode, Option.map_some']

theorem nilReadingEnv_codec (d : PyprojectTomlDocument) :
    ∃ back : PyprojectTomlDocument,
      nilReadingEnv.decode (nilReadingEnv.encode d) = some back ∧
        ∀ key, back.Tool.Poetry.Scripts.get key = d.Tool.Poetry.Scripts.get key :=
  ⟨normalizeDocument d, nilReadingEnv_decode_encode d,
    fun key => normalizeMap_get d.Tool.Poetry.Scripts key⟩

/-- The decoder of `nilReadingEnv` is not an inverse of its encoder: a document
whose scripts are an allocated empty map reads back with the nil map. -/
theorem nilReadingEnv_not_inverse :
    nilReadingEnv.decode (nilReadingEnv.encode
        { sampleDocument with
          Tool := { Poetry := { sampleDocument.Tool.Poetry with
            Scripts := GoMap.made ∅ } } }) ≠
      some { sampleDocument with
        Tool := { Poetry := { sampleDocument.Tool.Poetry with
          Scripts := GoMap.made ∅ } } } := by
  rw [nilReadingEnv_decode_encode]
  intro h
  have hs := congrArg (fun d : PyprojectTomlDocument => d.Tool.Poetry.Scripts)
    (Option.some.inj h)
  have hn : normalizeMap (GoMap.made ∅) = GoMap.nil := rfl
  simp only [normalizeDocument] at hs
  rw [hn] at hs
  cases hs

theorem normalizeDocument_sampleDocument : normalizeDocument sampleDocument = sampleDocument :=
  rfl

theorem nilReadingEnv_read_manifest :
    sampleProject.ReadPoetryConfig nilReadingEnv
      (oneFileWorld (nilReadingEnv.join [sampleProject.Path, poetryConfigDefaultFileName])
        (nilReadingEnv.encode sampleDocument)) = .ok sampleDocument :=
  ReadPoetryConfig_oneFileWorld nilReadingEnv sampleProject sampleDocument
    ((nilReadingEnv_decode_encode sampleDocument).trans
      (congrArg some normalizeDocument_sampleDocument))

/-- Witness of C1: a project whose manifest holds the sample document, read
through a decoder that returns empty maps as nil. -/
theorem AddScript_twice_one_write_witness :
    (sampleProject.AddScript nilReadingEnv "main" "demo:main"
        (sampleProject.AddScript nilReadingEnv "main" "demo:main"
          (oneFileWorld (nilReadingEnv.join [sampleProject.Path, poetryConfigDefaultFileName])
            (nilReadingEnv.encode sampleDocument))).2).2 =
      (sampleProject.AddScript nilReadingEnv "main" "demo:main"
        (oneFileWorld (nilReadingEnv.join [sampleProject.Path, poetryConfigDefaultFileName])
          (nilReadingEnv.encode sampleDocument))).2 :=
  (AddScript_twice_one_write nilReadingEnv sampleProject "main" "demo:main"
    (oneFileWorld (nilReadingEnv.join [sampleProject.Path, poetryConfigDefaultFileName])
      (nilReadingEnv.encode sampleDocument))
    sampleDocument nilReadingEnv_read_manifest nilReadingEnv_codec).1

/-- C2: the document `AddScript` hands to `WritePoetryConfig` has the
build-system table and the name, version, description, authors, readme and
dependencies of the document read. -/
theorem AddScript_preserves_other_fields (env : Env) (p : PoetryProject)
    (name location : String) (w : World) (document written : PyprojectTomlDocument)
    (hread : p.ReadPoetryConfig env w = .ok document)
    (hwrite : addScriptDocument document name location = some written) :
    p.AddScript env name location w = p.WritePoetryConfig env written w ∧
      written.BuildSystem = document.BuildSystem ∧
      written.BuildSystem.Requires = document.BuildSystem.Requires ∧
      written.BuildSystem.BuildBackend = document.BuildSystem.BuildBackend ∧
      written.Tool.Poetry.Name = document.Tool.Poetry.Name ∧
      written.Tool.Poetry.Version = document.Tool.Poetry.Version ∧
      written.Tool.Poetry.Description = document.Tool.Poetry.Description ∧
      written.Tool.Poetry.Authors = document.Tool.Poetry.Authors ∧
      written.Tool.Poetry.ReadmePath = document.Tool.Poetry.ReadmePath ∧
      written.Tool.Poetry.Dependencies = document.Tool.Poetry.Dependencies := by
  have hcall := AddScript_of_read name location hread
  rw [hwrite] at hcall
  rw [addScriptDocument_eq_some hwrite]
  rw [addScriptDocument_eq_some hwrite] at hcall
  exact ⟨hcall, rfl, rfl, rfl, rfl, rfl, rfl, rfl, rfl, rfl⟩

theorem sample_addScriptDocument :
    addScriptDocument sampleDocument "main" "demo:main" =
      some { sampleDocument with
        Tool := { Poetry := { sampleDocument.Tool.Poetry with
          Scripts := GoMap.made ((∅ : StringMap).insert "main" "demo:main") } } } :=
  rfl

/-- Witness of C2: adding `main` to the sample document. -/
theorem AddScript_preserves_other_fields_witness :
    ({ sampleDocument with
        Tool := { Poetry := { sampleDocument.Tool.Poetry with
          Scripts := GoMap.made ((∅ : StringMap).insert "main" "demo:main") } } } :
      PyprojectTomlDocument).Tool.Poetry.Dependencies =
      sampleDocument.Tool.Poetry.Dependencies :=
  (AddScript_preserves_other_fields sampleEnv sampleProject "main" "demo:main"
    (oneFileWorld (sampleEnv.join [sampleProject.Path, poetryConfigDefaultFileName])
      (sampleEnv.encode sampleDocument))
    sampleDocument _ sample_read_manifest sample_addScriptDocument).2.2.2.2.2.2.2.2.2

/-- C3: whenever `AddScript` writes, the scripts of the written document map
`name` to `location`, agree with the scripts read on every other key, and
have exactly the keys read together with `name`. -/
theorem AddScript_written_scripts (env : Env) (p : PoetryProject)
    (name location : String) (w : World) (document written : PyprojectTomlDocument)
    (hread : p.ReadPoetryConfig env w = .ok document)
    (hwrite : addScriptDocument document name location = some written) :
    p.AddScript env name location w = p.WritePoetryConfig env written w ∧
      written.Tool.Poetry.Scripts.get name = some location ∧
      (∀ key, key ≠ name →
        written.Tool.Poetry.Scripts.get key = document.Tool.Poetry.Scripts.get key) ∧
      (∀ key, key ∈ written.Tool.Poetry.Scripts.keys ↔
        key = name ∨ key ∈ document.Tool.Poetry.Scripts.keys) := by
  have hcall := AddScript_of_read name location hread
  rw [hwrite] at hcall
  refine ⟨hcall, addScriptDocument_scripts_get hwrite, ?_, ?_⟩
  · intro key hkey
    rw [addScriptDocument_eq_some hwrite]
    show AList.lookup key ((copyScripts document.Tool.Poetry.Scripts).insert name location) = _
    rw [AList.lookup_insert_ne hkey, copyScripts_lookup]
  · intro key
    rw [addScriptDocument_eq_some hwrite]
    show key ∈ ((copyScripts document.Tool.Poetry.Scripts).insert name location).keys ↔ _
    rw [← AList.mem_keys, AList.mem_insert, copyScripts_mem]

theorem sample_addScriptDocument_empty_location :
    addScriptDocument sampleDocument "main" "" =
      some { sampleDocument with
        Tool := { Poetry := { sampleDocument.Tool.Poetry with
          Scripts := GoMap.made ((∅ : StringMap).insert "main" "") } } } :=
  rfl

/-- Witness of C3: the scripts read are the nil map and the location is the
empty string. -/
theorem AddScript_written_scripts_witness :
    (GoMap.made ((∅ : StringMap).insert "main" "")).get "main" = some "" :=
  (AddScript_written_scripts sampleEnv sampleProject "main" ""
    (oneFileWorld (sampleEnv.join [sampleProject.Path, poetryConfigDefaultFileName])
      (sampleEnv.encode sampleDocument))
    sampleDocument _ sample_read_manifest sample_addScriptDocument_empty_location).2.1

/-! ## The entry file: `InitializeDefaultMainPythonFile` -/

/-- C6: when `InitializeDefaultMainPythonFile` succeeds, a file that held at
least one byte is unchanged, a missing or empty file holds exactly the
template, and a second call succeeds and changes nothing. -/
theorem InitializeDefaultMainPythonFile_contents (env : Env) (p : PoetryProject) (w : World)
    (hok : (p.InitializeDefaultMainPythonFile env w).1 = .ok ()) :
    (∀ content, w.nodes (env.join [p.Path, p.Name, initPythonScriptDefaultFileName]) =
          Node.file content → content ≠ "" →
        p.InitializeDefaultMainPythonFile env w = (.ok (), w)) ∧
      (w.nodes (env.join [p.Path, p.Name, initPythonScriptDefaultFileName]) = Node.absent ∨
          w.nodes (env.join [p.Path, p.Name, initPythonScriptDefaultFileName]) = Node.file "" →
        (p.InitializeDefaultMainPythonFile env w).2.nodes
            (env.join [p.Path, p.Name, initPythonScriptDefaultFileName]) =
          Node.file "def main() -> None:\n    pass\n\nif __name__ == \"__main__\":\n    main()\n") ∧
      p.InitializeDefaultMainPythonFile env (p.InitializeDefaultMainPythonFile env w).2 =
        (.ok (), (p.InitializeDefaultMainPythonFile env w).2) := by
  have htemplate : defaultMainPythonFileContents ≠ "" := by decide
  have htext : defaultMainPythonFileContents =
      "def main() -> None:\n    pass\n\nif __name__ == \"__main__\":\n    main()\n" := by decide
  have hput : ∀ v : World, v.canWrite (env.join [p.Path, p.Name, initPythonScriptDefaultFileName]) = true →
      p.InitializeDefaultMainPythonFile env
          (v.put (env.join [p.Path, p.Name, initPythonScriptDefaultFileName])
            defaultMainPythonFileContents) =
        (.ok (), v.put (env.join [p.Path, p.Name, initPythonScriptDefaultFileName])
          defaultMainPythonFileContents) := by
    intro v _
    simp [PoetryProject.InitializeDefaultMainPythonFile, World.put, htemplate]
  unfold PoetryProject.InitializeDefaultMainPythonFile at hok ⊢
  cases hnode : w.nodes (env.join [p.Path, p.Name, initPythonScriptDefaultFileName]) with
  | absent =>
    simp only [hnode] at hok ⊢
    by_cases hcan : w.canWrite (env.join [p.Path, p.Name, initPythonScriptDefaultFileName]) = true
    · have h2 := hput w hcan
      unfold PoetryProject.InitializeDefaultMainPythonFile at h2
      simp only [hcan, if_true] at h2 ⊢
      refine ⟨?_, ?_, h2⟩
      · intro c hc
        cases hc
      · intro _
        simp [World.put, htext]
    · simp [hcan] at hok
  | dir =>
    simp [hnode] at hok
  | file content =>
    simp only [hnode] at hok ⊢
    by_cases hne : content ≠ ""
    · simp only [hne, if_true, ne_eq, not_false_eq_true]
      simp only [hnode, hne, if_true, ne_eq, not_false_eq_true]
      refine ⟨?_, ?_, trivial⟩
      · intro _ _ _
        trivial
      · intro h
        rcases h with h | h
        · cases h
        · exact absurd (Node.file.inj h) hne
    · have he : content = "" := not_not.mp hne
      subst he
      simp only [ne_eq, not_true_eq_false, if_false] at hok ⊢
      by_cases hcan : w.canWrite (env.join [p.Path, p.Name, initPythonScriptDefaultFileName]) = true
      · have h2 := hput w hcan
        unfold PoetryProject.InitializeDefaultMainPythonFile at h2
        simp only [hcan, if_true] at h2 ⊢
        refine ⟨?_, ?_, h2⟩
        · intro c hc hcne
          exact absurd (Node.file.inj hc).symm hcne
        · intro _
          simp [World.put, htext]
      · simp [hcan] at hok

/-- Witness of C6: the entry file of the sample project is missing. -/
theorem InitializeDefaultMainPythonFile_contents_witness :
    sampleProject.InitializeDefaultMainPythonFile sampleEnv
        (sampleProject.InitializeDefaultMainPythonFile sampleEnv emptyWorld).2 =
      (.ok (), (sampleProject.InitializeDefaultMainPythonFile sampleEnv emptyWorld).2) :=
  (InitializeDefaultMainPythonFile_contents sampleEnv sampleProject emptyWorld rfl).2.2

/-! ## The ignore file: `AddIgnoredPath` -/

theorem splitLines_snoc_newline (t : List Char) (ht : '\n' ∉ t) :
    splitLines (t ++ ['\n']) = [t] := by
  induction t with
  | nil => simp [splitLines]
  | cons c t ih =>
    have hc : c ≠ '\n' := fun h => ht (by simp [h])
    have ht2 : '\n' ∉ t := fun h => ht (List.mem_cons_of_mem c h)
    simp [splitLines, hc, ih ht2]

theorem splitLines_snoc_ne_nil (t : List Char) : splitLines (t ++ ['\n']) ≠ [] := by
  induction t with
  | nil => simp [splitLines]
  | cons c t ih =>
    simp only [List.cons_append, splitLines, List.append_eq]
    split
    · simp
    · split <;> simp

theorem splitLines_after_newline (front rest : List Char) :
    splitLines (front ++ '\n' :: rest) = splitLines (front ++ ['\n']) ++ splitLines rest := by
  induction front with
  | nil => simp [splitLines]
  | cons c t ih =>
    simp only [List.cons_append, splitLines, List.append_eq]
    split
    · simp [ih]
    · rw [ih]
      cases hs : splitLines (t ++ ['\n']) with
      | nil => exact absurd hs (splitLines_snoc_ne_nil t)
      | cons l ls => simp

theorem fileLines_append_entry (contents path : String)
    (hend : contents = "" ∨ ∃ front : String, contents = front ++ "\n")
    (hpath : '\n' ∉ path.data) :
    fileLines (contents ++ (path ++ "/\n")) = fileLines contents ++ [path ++ "/"] := by
  have hline : splitLines (path.data ++ ['/', '\n']) = [path.data ++ ['/']] := by
    have := splitLines_snoc_newline (path.data ++ ['/']) (by simp [hpath])
    simpa using this
  have hmk : String.mk (path.data ++ ['/']) = path ++ "/" := by
    apply String.ext
    simp [String.data_append]
  have hdata : (contents ++ (path ++ "/\n")).data = contents.data ++ (path.data ++ ['/', '\n']) := by
    simp [String.data_append]
  unfold fileLines
  rw [hdata]
  rcases hend with h | ⟨front, h⟩
  · subst h
    simp [hline, hmk, splitLines]
  · subst h
    have hfront : (front ++ "\n").data = front.data ++ ['\n'] := by simp [String.data_append]
    rw [hfront, List.append_assoc, List.singleton_append, splitLines_after_newline, hline]
    simp [hmk]

theorem AddIgnoredPath_of_contents (env : Env) (p : PoetryProject) (path : String) (w : World)
    (contents : String)
    (hnode : ignoreContents w (env.join [p.Path, gitignoreDefaultFileName]) = some contents)
    (hcan : w.canWrite (env.join [p.Path, gitignoreDefaultFileName]) = true) :
    ∃ w1 : World,
      (w1.nodes (env.join [p.Path, gitignoreDefaultFileName]) = Node.file contents ∧
        w1.creatable = w.creatable) ∧
      p.AddIgnoredPath env path w =
        if env.ignores (env.join [p.Path, gitignoreDefaultFileName]) contents
            (env.join [p.Path, gitignoreDefaultFileName]) then (.ok (), w1)
        else (.ok (), w1.put (env.join [p.Path, gitignoreDefaultFileName])
          (contents ++ (path ++ "/\n"))) := by
  unfold ignoreContents at hnode
  cases hn : w.nodes (env.join [p.Path, gitignoreDefaultFileName]) with
  | absent =>
    rw [hn] at hnode
    cases hnode
    refine ⟨w.put (env.join [p.Path, gitignoreDefaultFileName]) "", by simp [World.put], ?_⟩
    have hcan1 : (w.put (env.join [p.Path, gitignoreDefaultFileName]) "").canWrite
        (env.join [p.Path, gitignoreDefaultFileName]) = true := by
      simp only [World.canWrite, Bool.and_eq_true, decide_eq_true_eq] at hcan ⊢
      exact ⟨hcan.1, by simp [World.put]⟩
    have hn1 : (w.put (env.join [p.Path, gitignoreDefaultFileName]) "").nodes
        (env.join [p.Path, gitignoreDefaultFileName]) = Node.file "" := by simp [World.put]
    simp only [PoetryProject.AddIgnoredPath, hn, hcan, if_true, hn1, hcan1]
  | dir =>
    rw [hn] at hnode
    cases hnode
  | file c =>
    rw [hn] at hnode
    cases hnode
    refine ⟨w, ⟨hn, rfl⟩, ?_⟩
    simp only [PoetryProject.AddIgnoredPath, hn, hcan, if_true, if_false, reduceCtorEq]

theorem AddIgnoredPath_append_result (env : Env) (p : PoetryProject) (path : String)
    (w : World) (contents : String)
    (hnode : ignoreContents w (env.join [p.Path, gitignoreDefaultFileName]) = some contents)
    (hmatch : env.ignores (env.join [p.Path, gitignoreDefaultFileName]) contents
      (env.join [p.Path, gitignoreDefaultFileName]) = false)
    (hcan : w.canWrite (env.join [p.Path, gitignoreDefaultFileName]) = true) :
    (p.AddIgnoredPath env path w).1 = .ok () ∧
      (p.AddIgnoredPath env path w).2.nodes (env.join [p.Path, gitignoreDefaultFileName]) =
        Node.file (contents ++ (path ++ "/\n")) := by
  obtain ⟨w1, _, hcall⟩ := AddIgnoredPath_of_contents env p path w contents hnode hcan
  rw [hmatch] at hcall
  rw [hcall]
  exact ⟨rfl, by simp [World.put]⟩

/-- C9, amended: when `AddIgnoredPath` does not skip, the ignore file holds
its previous content followed by `path`, a slash and a newline; when the
previous content is empty or ends in a newline and `path` has no newline, its
lines are the previous lines followed by the one line `path` plus slash. -/
theorem AddIgnoredPath_appends_entry (env : Env) (p : PoetryProject) (path : String)
    (w : World) (contents : String)
    (hnode : ignoreContents w (env.join [p.Path, gitignoreDefaultFileName]) = some contents)
    (hmatch : env.ignores (env.join [p.Path, gitignoreDefaultFileName]) contents
      (env.join [p.Path, gitignoreDefaultFileName]) = false)
    (hcan : w.canWrite (env.join [p.Path, gitignoreDefaultFileName]) = true) :
    (p.AddIgnoredPath env path w).1 = .ok () ∧
      (p.AddIgnoredPath env path w).2.nodes (env.join [p.Path, gitignoreDefaultFileName]) =
        Node.file (contents ++ (path ++ "/\n")) ∧
      ((contents = "" ∨ ∃ front : String, contents = front ++ "\n") → '\n' ∉ path.data →
        fileLines (contents ++ (path ++ "/\n")) = fileLines contents ++ [path ++ "/"]) :=
  ⟨(AddIgnoredPath_append_result env p path w contents hnode hmatch hcan).1,
    (AddIgnoredPath_append_result env p path w contents hnode hmatch hcan).2,
    fileLines_append_entry contents path⟩

/-- Witness of C9: the first entry of a project without an ignore file. -/
theorem AddIgnoredPath_appends_entry_witness :
    (sampleProject.AddIgnoredPath sampleEnv "build" emptyWorld).2.nodes
        (sampleEnv.join [sampleProject.Path, gitignoreDefaultFileName]) =
      Node.file ("" ++ ("build" ++ "/\n")) :=
  (AddIgnoredPath_appends_entry sampleEnv sampleProject "build" emptyWorld ""
    (by decide) (by decide) (by decide)).2.1

/-- C9 as stated fails: appended to a file whose last line has no newline,
the entry is glued to that line; and a path holding a newline adds two
lines. -/
theorem AddIgnoredPath_appends_entry_counterexample :
    ((sampleProject.AddIgnoredPath sampleEnv "build" (projectWorld "dist")).2.nodes
          "proj/.gitignore" = Node.file "distbuild/\n" ∧
        fileLines "distbuild/\n" = ["distbuild/"] ∧
        fileLines "distbuild/\n" ≠ fileLines "dist" ++ ["build/"]) ∧
      ((sampleProject.AddIgnoredPath sampleEnv "a\nb" (projectWorld "")).2.nodes
          "proj/.gitignore" = Node.file "a\nb/\n" ∧
        fileLines "a\nb/\n" = ["a", "b/"] ∧
        fileLines "a\nb/\n" ≠ fileLines "" ++ ["a\nb/"]) := by
  decide

/-- Whether `AddIgnoredPath` appends does not depend on the path it is given:
the matcher is asked about the ignore file. -/
theorem AddIgnoredPath_decision_ignores_argument (env : Env) (p : PoetryProject)
    (path other : String) (w : World) :
    (p.AddIgnoredPath env path w).1 = (p.AddIgnoredPath env other w).1 ∧
      ((p.AddIgnoredPath env path w).2.trace.length =
        (p.AddIgnoredPath env other w).2.trace.length) := by
  unfold PoetryProject.AddIgnoredPath
  simp only
  split
  · exact ⟨rfl, rfl⟩
  · split
    · split
      · exact ⟨rfl, rfl⟩
      · split
        · simp [World.put]
        · exact ⟨rfl, rfl⟩
    · exact ⟨rfl, rfl⟩

/-- C4, evaluated: in a project without an ignore file, two calls of
`AddIgnoredPath` with `build` leave the line `build/` twice. -/
theorem AddIgnoredPath_twice_appends_twice :
    (sampleProject.AddIgnoredPath sampleEnv "build"
        (sampleProject.AddIgnoredPath sampleEnv "build" emptyWorld).2).2.nodes
          "proj/.gitignore" = Node.file "build/\nbuild/\n" ∧
      lineCount "build/\nbuild/\n" "build/" = 2 ∧
      ignoreContents emptyWorld "proj/.gitignore" = some "" ∧
      lineCount "" "build/" = 0 := by
  decide

/-- C5, evaluated: the ignore file already lists `build/` and the matcher
reports the directory `build` as ignored, yet `AddIgnoredPath` appends the
entry again, because the path it asks the matcher about is the ignore file. -/
theorem AddIgnoredPath_tests_ignore_file :
    sampleEnv.ignores "proj/.gitignore" "build/\n" "build" = true ∧
      sampleEnv.ignores "proj/.gitignore" "build/\n" "proj/build" = true ∧
      sampleEnv.ignores "proj/.gitignore" "build/\n" "proj/.gitignore" = false ∧
      (sampleProject.AddIgnoredPath sampleEnv "build" (projectWorld "build/\n")).2.nodes
          "proj/.gitignore" = Node.file "build/\nbuild/\n" := by
  decide

/-- When the matcher reports the ignore file as not ignored before and after
the first append, the second call appends the same entry again. -/
theorem AddIgnoredPath_second_call_appends (env : Env) (p : PoetryProject) (path : String)
    (w : World) (contents : String)
    (hnode : ignoreContents w (env.join [p.Path, gitignoreDefaultFileName]) = some contents)
    (hcan : w.canWrite (env.join [p.Path, gitignoreDefaultFileName]) = true)
    (hfirst : env.ignores (env.join [p.Path, gitignoreDefaultFileName]) contents
      (env.join [p.Path, gitignoreDefaultFileName]) = false)
    (hsecond : env.ignores (env.join [p.Path, gitignoreDefaultFileName])
      (contents ++ (path ++ "/\n")) (env.join [p.Path, gitignoreDefaultFileName]) = false) :
    (p.AddIgnoredPath env path (p.AddIgnoredPath env path w).2).2.nodes
        (env.join [p.Path, gitignoreDefaultFileName]) =
      Node.file (contents ++ (path ++ "/\n") ++ (path ++ "/\n")) := by
  obtain ⟨w1, ⟨_, hcr⟩, hcall⟩ := AddIgnoredPath_of_contents env p path w contents hnode hcan
  rw [hfirst] at hcall
  have hnode2 : ignoreContents (p.AddIgnoredPath env path w).2
      (env.join [p.Path, gitignoreDefaultFileName]) = some (contents ++ (path ++ "/\n")) := by
    rw [hcall]
    simp [ignoreContents, World.put]
  have hcan2 : (p.AddIgnoredPath env path w).2.canWrite
      (env.join [p.Path, gitignoreDefaultFileName]) = true := by
    rw [hcall]
    simp only [World.canWrite, Bool.and_eq_true, decide_eq_true_eq] at hcan ⊢
    refine ⟨?_, by simp [World.put]⟩
    show w1.creatable _ = true
    rw [hcr]
    exact hcan.1
  exact (AddIgnoredPath_append_result env p path (p.AddIgnoredPath env path w).2
    (contents ++ (path ++ "/\n")) hnode2 hsecond hcan2).2

/-! ## The driver -/

/-- C7: when the project path already names something, `CreateNewProject`
returns an error and leaves the world, its trace of spawned commands
included, as it was; so a second call after a first one that created the path
fails, and the trace holds the single command of the first call. -/
theorem CreateNewProject_existing_path (env : Env) (d : Driver) (path name : String)
    (w : World) :
    (w.nodes (env.join [path, name]) ≠ Node.absent →
        d.CreateNewProject env path name w =
          (.error ("directory already exists: " ++ env.join [path, name]), w)) ∧
      (∀ (project : PoetryProject) (w1 : World),
        d.CreateNewProject env path name w = (.ok project, w1) →
        w1.nodes (env.join [path, name]) ≠ Node.absent →
        w1.trace = w.trace ++ [Event.spawn (newProjectCommand env d path name)] ∧
          d.CreateNewProject env path name w1 =
            (.error ("directory already exists: " ++ env.join [path, name]), w1)) := by
  have hexists : ∀ v : World, v.nodes (env.join [path, name]) ≠ Node.absent →
      d.CreateNewProject env path name v =
        (.error ("directory already exists: " ++ env.join [path, name]), v) := by
    intro v hv
    simp [Driver.CreateNewProject, hv]
  refine ⟨hexists w, ?_⟩
  intro project w1 hcall hw1
  refine ⟨?_, hexists w1 hw1⟩
  unfold Driver.CreateNewProject at hcall
  simp only at hcall
  split at hcall
  · cases hcall
  · split at hcall
    · cases hcall
      rfl
    · cases hcall

/-- Witness of C7: the package manager creates `tmp/demo` on the first call. -/
theorem CreateNewProject_existing_path_witness :
    (Driver.CreateNewProject sampleEnv { PoetryExecutableFilePath := "poetry" } "tmp" "demo"
        emptyWorld).2.trace =
      emptyWorld.trace ++
        [Event.spawn (newProjectCommand sampleEnv { PoetryExecutableFilePath := "poetry" }
          "tmp" "demo")] ∧
      Driver.CreateNewProject sampleEnv { PoetryExecutableFilePath := "poetry" } "tmp" "demo"
          (Driver.CreateNewProject sampleEnv { PoetryExecutableFilePath := "poetry" } "tmp" "demo"
            emptyWorld).2 =
        (.error ("directory already exists: " ++ sampleEnv.join ["tmp", "demo"]),
          (Driver.CreateNewProject sampleEnv { PoetryExecutableFilePath := "poetry" } "tmp" "demo"
            emptyWorld).2) :=
  (CreateNewProject_existing_path sampleEnv { PoetryExecutableFilePath := "poetry" } "tmp" "demo"
    emptyWorld).2 { Name := "demo", Path := "tmp/demo" }
    (Driver.CreateNewProject sampleEnv { PoetryExecutableFilePath := "poetry" } "tmp" "demo"
      emptyWorld).2 rfl (by decide)

theorem ite_length_pos {c : Prop} [Decidable c] {a b : List Char}
    (ha : 1 ≤ a.length) (hb : 1 ≤ b.length) : 1 ≤ (if c then a else b).length := by
  split <;> assumption

theorem appendEscapedRune_length (wide : Char → Bool) (r : Char) :
    1 ≤ (appendEscapedRune wide r).length := by
  unfold appendEscapedRune
  repeat' apply ite_length_pos
  all_goals simp only [List.length_cons, List.length_nil]
  all_goals omega

theorem quoteBody_length (wide : Char → Bool) (s : List Char) :
    s.length ≤ (quoteBody wide s).length := by
  induction s with
  | nil => simp [quoteBody]
  | cons r rest ih =>
    have := appendEscapedRune_length wide r
    simp only [quoteBody, List.length_append, List.length_cons]
    omega

/-- The directory option `CreateNewProject` passes is never the plain root
path: the quoted form is at least two characters longer. -/
theorem newProjectCommand_directory_quoted (env : Env) (d : Driver) (path name : String) :
    (newProjectCommand env d path name).Args ≠ ["new", name, "--directory=" ++ path] := by
  intro h
  have h3 : "--directory=" ++ strconvQuote env.isPrintWide path = "--directory=" ++ path := by
    unfold newProjectCommand at h
    injection h with _ h
    injection h with _ h
    injection h with h _
  have hlen := congrArg (fun t : String => t.data.length) h3
  have hq := quoteBody_length env.isPrintWide path.data
  simp only [String.data_append, List.length_append, strconvQuote, List.length_cons,
    List.length_nil] at hlen
  omega

/-- C8, evaluated: for root `/tmp/work` and name `demo` the third argument of
the spawned command carries the root path inside double quotes, while
`Install` passes the path as it is. -/
theorem CreateNewProject_directory_argument :
    (Driver.CreateNewProject sampleEnv { PoetryExecutableFilePath := "poetry" } "/tmp/work"
        "demo" emptyWorld).2.trace =
      [Event.spawn
        { Path := "poetry"
          Args := ["new", "demo", "--directory=\"/tmp/work\""]
          Dir := "/tmp/work" }] ∧
      (Driver.Install sampleEnv { PoetryExecutableFilePath := "poetry" } "/tmp/work"
        emptyWorld).2.trace =
      [Event.spawn
        { Path := "poetry"
          Args := ["install", "--directory=/tmp/work"]
          Dir := "" }] := by
  decide

/-- C10, evaluated: on `linux` the lookup command has the empty program name;
`ios` gives `which` and `windows` gives `where`. -/
theorem lookupCommand_linux_empty :
    lookupCommand "linux" = some { Path := "", Args := ["poetry"], Dir := "" } ∧
      lookupCommand "ios" = some { Path := "which", Args := ["poetry"], Dir := "" } ∧
      lookupCommand "windows" = some { Path := "where", Args := ["poetry"], Dir := "" } ∧
      lookupCommand "darwin" = none := by
  decide

end Poetryx
